import Mathlib

/-!
Shallow embedding of the Orpheus TTS streaming core (src/ollama_tts.py and
src/app.py): prompt formatting, the PCM quantization performed by
(samples * 32767).astype(np.int16).tobytes(), the RIFF/WAVE framing produced
by the Python wave module, the fragment loop of OrpheusOllama._stream_audio,
the non-streaming path OrpheusOllama._generate_complete_audio, and the
dispatcher OrpheusOllama.generate_speech.
-/

namespace OrpheusTTS

/-- Voice whitelist, AVAILABLE_VOICES in src/ollama_tts.py (lines 30-33). -/
def AVAILABLE_VOICES : List String :=
  ["tara", "leah", "jess", "leo", "dan", "mia", "zac", "zoe"]

/-- OrpheusOllama.format_prompt (lines 74-80): an invalid voice is replaced by
"tara", then the prompt is "{voice}: {text}". -/
def format_prompt (text voice : String) : String :=
  (if voice ∈ AVAILABLE_VOICES then voice else "tara") ++ ": " ++ text

/-- Truncation toward zero of a rational: the C-cast semantics the numpy astype call
uses when converting a float to an integer type. -/
def ratTruncZ (q : ℚ) : ℤ := if 0 ≤ q then ⌊q⌋ else ⌈q⌉

/-- Reduction of an integer into the int16 range by twos-complement
wrap-around, which is what astype(np.int16) does to out-of-range values. -/
def wrap16 (n : ℤ) : ℤ := (n + 32768) % 65536 - 32768

/-- One sample through the conversion in the source,
(audio_samples * 32767).astype(np.int16) (lines 152 and 228): scale by 32767,
truncate toward zero, wrap into int16.  No rounding and no clamping happens. -/
def quantizeSample (s : ℚ) : ℤ := wrap16 (ratTruncZ (s * 32767))

/-- Little-endian two-byte encoding of an int16 value, as tobytes() emits it. -/
def int16ToBytesLE (n : ℤ) : List ℕ :=
  [(n % 65536).toNat % 256, (n % 65536).toNat / 256]

/-- PCM byte stream of a sample list: each sample quantized and encoded LE. -/
def pcm16Bytes : List ℚ → List ℕ
  | [] => []
  | s :: rest => int16ToBytesLE (quantizeSample s) ++ pcm16Bytes rest

/-- Modelled from the spec: the SampleQuantizer the spec describes (section
4.4), round(s * 32767) clamped into [-32768, 32767].  Used only to compare the
quantizer claimed by the spec with the one the source implements. -/
def specQuantize (s : ℚ) : ℤ := max (-32768) (min 32767 (round (s * 32767)))

/-- Little-endian 16-bit field of a WAV header. -/
def le16 (n : ℕ) : List ℕ := [n % 256, n / 256 % 256]

/-- Little-endian 32-bit field of a WAV header. -/
def le32 (n : ℕ) : List ℕ :=
  [n % 256, n / 256 % 256, n / 65536 % 256, n / 16777216 % 256]

/-- The 44-byte RIFF/WAVE header the Python wave module writes for mono 16-bit
audio at the given sample rate with the given data-chunk byte length: RIFF
magic, riff size 36+dataLen, WAVE, fmt chunk (PCM, 1 channel, rate, byte rate
2*rate, block align 2, 16 bits), data magic, dataLen. -/
def wavHeader (rate dataLen : ℕ) : List ℕ :=
  [82, 73, 70, 70] ++ le32 (36 + dataLen) ++ [87, 65, 86, 69]
    ++ [102, 109, 116, 32] ++ le32 16 ++ le16 1 ++ le16 1 ++ le32 rate
    ++ le32 (2 * rate) ++ le16 2 ++ le16 16 ++ [100, 97, 116, 97] ++ le32 dataLen

/-- A complete WAV file as _generate_complete_audio builds it in a BytesIO:
header with the exact data length followed by the PCM payload (lines 144-156;
the wave module patches the length fields on close of a seekable stream). -/
def wavComplete (rate : ℕ) (pcm : List ℕ) : List ℕ :=
  wavHeader rate pcm.length ++ pcm

/-- Byte at an index of a byte string, 0 past the end. -/
def byteAt : List ℕ → ℕ → ℕ
  | [], _ => 0
  | b :: _, 0 => b
  | _ :: t, n + 1 => byteAt t n

/-- Read a little-endian 16-bit field at an offset of a byte string. -/
def readLE16 (bs : List ℕ) (off : ℕ) : ℕ :=
  byteAt bs off + 256 * byteAt bs (off + 1)

/-- Read a little-endian 32-bit field at an offset of a byte string. -/
def readLE32 (bs : List ℕ) (off : ℕ) : ℕ :=
  byteAt bs off + 256 * byteAt bs (off + 1) + 65536 * byteAt bs (off + 2)
    + 16777216 * byteAt bs (off + 3)

/-- One parsed line of the Ollama streaming response: the token carried by its
"response" field (defaulting to "") and its "done" flag (defaulting to false).
A line that is empty or fails JSON parsing is represented by none: the source
logs and skips it (lines 213 and 244-246). -/
structure OllamaRecord where
  response : String
  done : Bool
deriving DecidableEq

/-- A flush of the chunk accumulator: the text handed to the codec, the buffer
length immediately after the flush, and whether this was the final drain
flush performed on the done record. -/
structure FlushEv where
  text : String
  after : ℕ
  drain : Bool
deriving DecidableEq

/-- Result of the fragment loop of OrpheusOllama._stream_audio: the PCM chunks
yielded in order, the flushes performed, the buffered texts on which the codec
raised (the source catches the exception, logs and continues), the buffer at
loop exit, whether the loop exited through the break on a done record, and the
response fields of the records it processed. -/
structure LoopResult where
  chunks : List (List ℕ)
  flushes : List FlushEv
  failures : List String
  buffer : String
  sawDone : Bool
  consumed : List String
deriving DecidableEq

/-- The per-line fragment loop of OrpheusOllama._stream_audio (lines 212-249):
append each token to the buffer; once the buffer has ≥ 4 characters, encode it,
yield the PCM bytes, and clear the buffer (if the codec raises, the except
clause keeps the buffer and continues with the next line, skipping the done
check); then, if the record is marked done, drain any non-empty remainder and
break.  When the line list is exhausted without a done record the loop just
ends: the remaining buffer is not flushed. -/
def streamLoop (enc : String → Option (List ℚ)) :
    List (Option OllamaRecord) → String → LoopResult
  | [], buf => ⟨[], [], [], buf, false, []⟩
  | none :: ls, buf => streamLoop enc ls buf
  | some r :: ls, buf =>
    if 4 ≤ (buf ++ r.response).length then
      match enc (buf ++ r.response) with
      | none =>
        let rest := streamLoop enc ls (buf ++ r.response)
        ⟨rest.chunks, rest.flushes, (buf ++ r.response) :: rest.failures,
          rest.buffer, rest.sawDone, r.response :: rest.consumed⟩
      | some samples =>
        if r.done then
          ⟨[pcm16Bytes samples], [⟨buf ++ r.response, 0, false⟩], [], "", true,
            [r.response]⟩
        else
          let rest := streamLoop enc ls ""
          ⟨pcm16Bytes samples :: rest.chunks,
            ⟨buf ++ r.response, 0, false⟩ :: rest.flushes,
            rest.failures, rest.buffer, rest.sawDone, r.response :: rest.consumed⟩
    else
      if r.done then
        if buf ++ r.response = "" then
          ⟨[], [], [], buf ++ r.response, true, [r.response]⟩
        else
          match enc (buf ++ r.response) with
          | none =>
            let rest := streamLoop enc ls (buf ++ r.response)
            ⟨rest.chunks, rest.flushes, (buf ++ r.response) :: rest.failures,
              rest.buffer, rest.sawDone, r.response :: rest.consumed⟩
          | some samples =>
            ⟨[pcm16Bytes samples],
              [⟨buf ++ r.response, (buf ++ r.response).length, true⟩],
              [], buf ++ r.response, true, [r.response]⟩
      else
        let rest := streamLoop enc ls (buf ++ r.response)
        ⟨rest.chunks, rest.flushes, rest.failures, rest.buffer, rest.sawDone,
          r.response :: rest.consumed⟩

/-- Outcome of the streaming POST to Ollama: either the transport raises, or a
response arrives with a status code and a lazy sequence of lines. -/
inductive StreamTransport
  | failure
  | response (status : ℕ) (lines : List (Option OllamaRecord))

/-- An item yielded by the streaming generator, tagged by what the source
yields: the WAV header built before the request, or a PCM chunk. -/
inductive OutItem
  | header (bytes : List ℕ)
  | pcm (bytes : List ℕ)
deriving DecidableEq

/-- Whether an output item is the container header. -/
def OutItem.isHeader : OutItem → Bool
  | .header _ => true
  | .pcm _ => false

/-- What a full drive of the _stream_audio generator produced: the items it
yielded in order and whether it ended by raising. -/
structure StreamResult where
  outputs : List OutItem
  raised : Bool
deriving DecidableEq

/-- OrpheusOllama._stream_audio (lines 165-253): build and yield the WAV
header (with zero data length) first, then issue the streaming POST.  If the
POST raises, the outer except re-raises after the header was already yielded.
If the status is not 200 the generator logs and returns silently.  Otherwise
the fragment loop runs; exceptions inside it are caught, so a 200 run never
raises. -/
def streamAudio (enc : String → Option (List ℚ)) (rate : ℕ) :
    StreamTransport → StreamResult
  | .failure => ⟨[.header (wavHeader rate 0)], true⟩
  | .response status lines =>
    if status = 200 then
      ⟨.header (wavHeader rate 0) ::
        ((streamLoop enc lines "").chunks.map OutItem.pcm), false⟩
    else
      ⟨[.header (wavHeader rate 0)], false⟩

/-- The generator of stream_text_to_speech in src/app.py (lines 125-147):
yield the WAV header built by the wave module at 24000 Hz, then yield every
chunk produced by the model generator. -/
def appStreamOutputs (chunks : List (List ℕ)) : List OutItem :=
  .header (wavHeader 24000 0) :: chunks.map OutItem.pcm

/-- Outcome of the blocking POST to Ollama: either the transport raises, or a
response arrives with a status code and the "response" field of its JSON body
(defaulting to ""). -/
inductive CompleteTransport
  | failure
  | response (status : ℕ) (body : String)

/-- Errors a synthesis call can raise, matching the raise sites of the source. -/
inductive SpeechError
  | snacUnavailable
  | transportRaise
  | requestError
  | encodingRaise
deriving DecidableEq

/-- OrpheusOllama._generate_complete_audio (lines 103-163): a transport raise
propagates; a non-200 status raises RuntimeError; an empty generated text
returns b""; otherwise the text is encoded (a codec raise propagates) and a
complete WAV file is returned. -/
def generateCompleteAudio (enc : String → Option (List ℚ)) (rate : ℕ) :
    CompleteTransport → Except SpeechError (List ℕ)
  | .failure => .error .transportRaise
  | .response status body =>
    if status = 200 then
      if body = "" then .ok []
      else
        match enc body with
        | none => .error .encodingRaise
        | some samples => .ok (wavComplete rate (pcm16Bytes samples))
    else .error .requestError

/-- What generate_speech hands back: the complete audio bytes, or the result
of driving the streaming generator. -/
inductive SpeechOutput
  | complete (bytes : List ℕ)
  | streamed (r : StreamResult)
deriving DecidableEq

/-- A run of generate_speech: its result and how many POSTs it issued to the
text-generation backend. -/
structure SpeechRun where
  result : Except SpeechError SpeechOutput
  transportCalls : ℕ

/-- OrpheusOllama.generate_speech (lines 82-101): if the SNAC model is not
available, raise RuntimeError before anything else (no transport call is
issued); otherwise format the prompt and dispatch to the streaming or the
complete path, each of which issues exactly one POST. -/
def generate_speech (snacModel : Bool) (enc : String → Option (List ℚ))
    (rate : ℕ) (_text _voice : String) (stream : Bool)
    (trC : CompleteTransport) (trS : StreamTransport) : SpeechRun :=
  if snacModel then
    if stream then ⟨.ok (.streamed (streamAudio enc rate trS)), 1⟩
    else
      match generateCompleteAudio enc rate trC with
      | .error e => ⟨.error e, 1⟩
      | .ok bytes => ⟨.ok (.complete bytes), 1⟩
  else ⟨.error .snacUnavailable, 0⟩

/-- Concatenation of a list of strings. -/
def joinStr (l : List String) : String := l.foldr (· ++ ·) ""

-- Concrete evaluations of the embedding on small inputs.
example : format_prompt "hi" "zoe" = "zoe: hi" := by decide
example : format_prompt "hi" "bob" = "tara: hi" := by decide
example :
    streamLoop (fun _ => some []) [some ⟨"ab", false⟩] "" =
      ⟨[], [], [], "ab", false, ["ab"]⟩ := by decide
example :
    streamLoop (fun _ => some []) [some ⟨"abcd", true⟩] "" =
      ⟨[[]], [⟨"abcd", 0, false⟩], [], "", true, ["abcd"]⟩ := by decide
example :
    streamLoop (fun s => if s = "abcd" then none else some [])
      [some ⟨"abcd", false⟩, some ⟨"wxyz", true⟩] "" =
      ⟨[[]], [⟨"abcdwxyz", 0, false⟩], ["abcd"], "", true, ["abcd", "wxyz"]⟩ := by
  decide
example : wavHeader 24000 0 =
    [82, 73, 70, 70, 36, 0, 0, 0, 87, 65, 86, 69, 102, 109, 116, 32,
     16, 0, 0, 0, 1, 0, 1, 0, 192, 93, 0, 0, 128, 187, 0, 0, 2, 0, 16, 0,
     100, 97, 116, 97, 0, 0, 0, 0] := by decide

/-- A complete WAV file, flattened to its 44 header bytes followed by the
payload; lets the byte readers compute without unfolding the appends. -/
theorem wavComplete_flat (rate : ℕ) (pcm : List ℕ) :
    wavComplete rate pcm =
      82 :: 73 :: 70 :: 70 ::
      ((36 + pcm.length) % 256) :: ((36 + pcm.length) / 256 % 256) ::
      ((36 + pcm.length) / 65536 % 256) :: ((36 + pcm.length) / 16777216 % 256) ::
      87 :: 65 :: 86 :: 69 :: 102 :: 109 :: 116 :: 32 ::
      16 :: 0 :: 0 :: 0 :: 1 :: 0 :: 1 :: 0 ::
      (rate % 256) :: (rate / 256 % 256) :: (rate / 65536 % 256) ::
      (rate / 16777216 % 256) ::
      (2 * rate % 256) :: (2 * rate / 256 % 256) :: (2 * rate / 65536 % 256) ::
      (2 * rate / 16777216 % 256) ::
      2 :: 0 :: 16 :: 0 :: 100 :: 97 :: 116 :: 97 ::
      (pcm.length % 256) :: (pcm.length / 256 % 256) :: (pcm.length / 65536 % 256) ::
      (pcm.length / 16777216 % 256) :: pcm := by
  simp [wavComplete, wavHeader, le32, le16]

/-- A non-empty string has positive length. -/
theorem length_pos_of_ne_empty (s : String) (h : s ≠ "") : 0 < s.length := by
  cases s with
  | mk data =>
    cases data with
    | nil => simp at h
    | cons c cs => simp [String.length]

/-- The header tag never occurs among mapped PCM chunks. -/
theorem countP_isHeader_map_pcm (l : List (List ℕ)) :
    (l.map OutItem.pcm).countP OutItem.isHeader = 0 := by
  induction l with
  | nil => rfl
  | cons a t ih => simp [List.countP_cons, OutItem.isHeader, ih]

/-- Claim C9: for every text t and voice v in the known voice set the prompt
formatter returns "{v}: {t}", and for every voice outside the set it
substitutes the default voice and returns "tara: {t}". -/
theorem C9_format_prompt_contract (t v : String) :
    (v ∈ AVAILABLE_VOICES → format_prompt t v = v ++ ": " ++ t) ∧
    (v ∉ AVAILABLE_VOICES → format_prompt t v = "tara" ++ ": " ++ t) := by
  constructor <;> intro h <;> simp [format_prompt, h]

/-- Witness for C9 at concrete inputs: the valid voice "zoe" is kept, the
invalid voice "bob" is replaced by "tara". -/
theorem C9_format_prompt_contract_witness :
    format_prompt "hello" "zoe" = "zoe" ++ ": " ++ "hello" ∧
    format_prompt "hello" "bob" = "tara" ++ ": " ++ "hello" :=
  ⟨(C9_format_prompt_contract "hello" "zoe").1 (by decide),
   (C9_format_prompt_contract "hello" "bob").2 (by decide)⟩

/-- Claim C8: when loading of the SNAC codec has failed, every synthesis call,
streaming or not, fails immediately with the unavailability error and issues
no transport call to the text-generation backend, whatever the backend would
have answered. -/
theorem C8_snac_unavailable_shortcircuit (enc : String → Option (List ℚ))
    (rate : ℕ) (text voice : String) (stream : Bool)
    (trC : CompleteTransport) (trS : StreamTransport) :
    (generate_speech false enc rate text voice stream trC trS).result =
        .error .snacUnavailable ∧
    (generate_speech false enc rate text voice stream trC trS).transportCalls = 0 :=
  ⟨rfl, rfl⟩

/-- Claim C10: the streaming generator builds and yields the container header
before issuing the transport request, so the first emitted item is the header
bytes for every transport outcome, including a transport raise and a
non-success status. -/
theorem C10_header_before_transport (enc : String → Option (List ℚ))
    (rate : ℕ) (tr : StreamTransport) :
    (streamAudio enc rate tr).outputs.head? =
        some (.header (wavHeader rate 0)) ∧
    (streamAudio enc rate .failure).outputs = [.header (wavHeader rate 0)] ∧
    (streamAudio enc rate .failure).raised = true := by
  refine ⟨?_, rfl, rfl⟩
  cases tr with
  | failure => rfl
  | response status lines =>
    by_cases h : status = 200 <;> simp [streamAudio, h]

/-- Claim C6: in every streaming run, of the Ollama backend as well as of the
app.py generator, the container header is the first output item, is emitted
exactly once, and all other items are PCM chunks. -/
theorem C6_header_once_first (enc : String → Option (List ℚ)) (rate : ℕ)
    (tr : StreamTransport) (chunks : List (List ℕ)) :
    ((streamAudio enc rate tr).outputs.head? =
        some (.header (wavHeader rate 0)) ∧
      (streamAudio enc rate tr).outputs.countP OutItem.isHeader = 1) ∧
    ((appStreamOutputs chunks).head? = some (.header (wavHeader 24000 0)) ∧
      (appStreamOutputs chunks).countP OutItem.isHeader = 1) := by
  refine ⟨⟨?_, ?_⟩, rfl, ?_⟩
  · cases tr with
    | failure => rfl
    | response status lines =>
      by_cases h : status = 200 <;> simp [streamAudio, h]
  · cases tr with
    | failure => rfl
    | response status lines =>
      by_cases h : status = 200 <;>
        simp [streamAudio, h, List.countP_cons, countP_isHeader_map_pcm,
          OutItem.isHeader]
  · simp [appStreamOutputs, List.countP_cons, countP_isHeader_map_pcm,
      OutItem.isHeader]

/-- Unfolding of streamLoop on a skipped (empty or malformed) line. -/
theorem streamLoop_none (enc : String → Option (List ℚ))
    (ls : List (Option OllamaRecord)) (buf : String) :
    streamLoop enc (none :: ls) buf = streamLoop enc ls buf := rfl

/-- Unfolding of streamLoop when the threshold is reached and the codec
raises: the exception is caught, the buffer is retained, the loop continues. -/
theorem streamLoop_threshold_fail (enc : String → Option (List ℚ))
    (r : OllamaRecord) (ls : List (Option OllamaRecord)) (buf : String)
    (h4 : 4 ≤ (buf ++ r.response).length)
    (he : enc (buf ++ r.response) = none) :
    streamLoop enc (some r :: ls) buf =
      ⟨(streamLoop enc ls (buf ++ r.response)).chunks,
       (streamLoop enc ls (buf ++ r.response)).flushes,
       (buf ++ r.response) :: (streamLoop enc ls (buf ++ r.response)).failures,
       (streamLoop enc ls (buf ++ r.response)).buffer,
       (streamLoop enc ls (buf ++ r.response)).sawDone,
       r.response :: (streamLoop enc ls (buf ++ r.response)).consumed⟩ := by
  simp only [streamLoop, if_pos h4, he]

/-- Unfolding of streamLoop when the threshold flush succeeds on a done
record: the buffer is cleared, so the drain finds it empty and the loop
breaks. -/
theorem streamLoop_flush_done (enc : String → Option (List ℚ))
    (r : OllamaRecord) (ls : List (Option OllamaRecord)) (buf : String)
    (samples : List ℚ) (h4 : 4 ≤ (buf ++ r.response).length)
    (he : enc (buf ++ r.response) = some samples) (hd : r.done = true) :
    streamLoop enc (some r :: ls) buf =
      ⟨[pcm16Bytes samples], [⟨buf ++ r.response, 0, false⟩], [], "", true,
        [r.response]⟩ := by
  simp only [streamLoop, if_pos h4, he, if_pos hd]

/-- Unfolding of streamLoop when the threshold flush succeeds on a non-done
record: the chunk is yielded and the loop continues with an empty buffer. -/
theorem streamLoop_flush_cont (enc : String → Option (List ℚ))
    (r : OllamaRecord) (ls : List (Option OllamaRecord)) (buf : String)
    (samples : List ℚ) (h4 : 4 ≤ (buf ++ r.response).length)
    (he : enc (buf ++ r.response) = some samples) (hd : r.done = false) :
    streamLoop enc (some r :: ls) buf =
      ⟨pcm16Bytes samples :: (streamLoop enc ls "").chunks,
       ⟨buf ++ r.response, 0, false⟩ :: (streamLoop enc ls "").flushes,
       (streamLoop enc ls "").failures,
       (streamLoop enc ls "").buffer,
       (streamLoop enc ls "").sawDone,
       r.response :: (streamLoop enc ls "").consumed⟩ := by
  simp only [streamLoop, if_pos h4, he,
    if_neg (show ¬ r.done = true by simp [hd])]

/-- Unfolding of streamLoop on a sub-threshold non-done record: the token is
only accumulated. -/
theorem streamLoop_accumulate (enc : String → Option (List ℚ))
    (r : OllamaRecord) (ls : List (Option OllamaRecord)) (buf : String)
    (h4 : ¬ 4 ≤ (buf ++ r.response).length) (hd : r.done = false) :
    streamLoop enc (some r :: ls) buf =
      ⟨(streamLoop enc ls (buf ++ r.response)).chunks,
       (streamLoop enc ls (buf ++ r.response)).flushes,
       (streamLoop enc ls (buf ++ r.response)).failures,
       (streamLoop enc ls (buf ++ r.response)).buffer,
       (streamLoop enc ls (buf ++ r.response)).sawDone,
       r.response :: (streamLoop enc ls (buf ++ r.response)).consumed⟩ := by
  simp only [streamLoop, if_neg h4,
    if_neg (show ¬ r.done = true by simp [hd])]

/-- Unfolding of streamLoop on a done record that leaves the buffer empty:
no drain flush, the loop breaks. -/
theorem streamLoop_done_empty (enc : String → Option (List ℚ))
    (r : OllamaRecord) (ls : List (Option OllamaRecord)) (buf : String)
    (h4 : ¬ 4 ≤ (buf ++ r.response).length) (hd : r.done = true)
    (hb : buf ++ r.response = "") :
    streamLoop enc (some r :: ls) buf =
      ⟨[], [], [], buf ++ r.response, true, [r.response]⟩ := by
  simp only [streamLoop, if_neg h4, if_pos hd, if_pos hb]

/-- Unfolding of streamLoop when the drain flush on a done record raises:
the exception is caught and the loop continues, skipping the break. -/
theorem streamLoop_drain_fail (enc : String → Option (List ℚ))
    (r : OllamaRecord) (ls : List (Option OllamaRecord)) (buf : String)
    (h4 : ¬ 4 ≤ (buf ++ r.response).length) (hd : r.done = true)
    (hb : ¬ buf ++ r.response = "") (he : enc (buf ++ r.response) = none) :
    streamLoop enc (some r :: ls) buf =
      ⟨(streamLoop enc ls (buf ++ r.response)).chunks,
       (streamLoop enc ls (buf ++ r.response)).flushes,
       (buf ++ r.response) :: (streamLoop enc ls (buf ++ r.response)).failures,
       (streamLoop enc ls (buf ++ r.response)).buffer,
       (streamLoop enc ls (buf ++ r.response)).sawDone,
       r.response :: (streamLoop enc ls (buf ++ r.response)).consumed⟩ := by
  simp only [streamLoop, if_neg h4, if_pos hd, if_neg hb, he]

/-- Unfolding of streamLoop when the drain flush on a done record succeeds:
the remainder is yielded and the loop breaks. -/
theorem streamLoop_drain_ok (enc : String → Option (List ℚ))
    (r : OllamaRecord) (ls : List (Option OllamaRecord)) (buf : String)
    (samples : List ℚ) (h4 : ¬ 4 ≤ (buf ++ r.response).length)
    (hd : r.done = true) (hb : ¬ buf ++ r.response = "")
    (he : enc (buf ++ r.response) = some samples) :
    streamLoop enc (some r :: ls) buf =
      ⟨[pcm16Bytes samples],
       [⟨buf ++ r.response, (buf ++ r.response).length, true⟩],
       [], buf ++ r.response, true, [r.response]⟩ := by
  simp only [streamLoop, if_neg h4, if_pos hd, if_neg hb, he]

/-- joinStr on nil. -/
theorem joinStr_nil : joinStr [] = "" := rfl

/-- joinStr on cons. -/
theorem joinStr_cons (a : String) (l : List String) :
    joinStr (a :: l) = a ++ joinStr l := rfl

/-- Text conservation through the fragment loop: the texts successfully
flushed to the codec, together with the exit buffer when the loop was not
broken by a done record, account exactly for the initial buffer plus every
token consumed. -/
theorem streamLoop_text_conserved (enc : String → Option (List ℚ)) :
    ∀ (lines : List (Option OllamaRecord)) (buf : String),
      joinStr (((streamLoop enc lines buf).flushes).map FlushEv.text) ++
          (if (streamLoop enc lines buf).sawDone then ""
           else (streamLoop enc lines buf).buffer) =
        buf ++ joinStr ((streamLoop enc lines buf).consumed)
  | [], buf => by
      simp [streamLoop, joinStr, String.append_empty, String.empty_append]
  | none :: ls, buf => by
      rw [streamLoop_none]
      exact streamLoop_text_conserved enc ls buf
  | some r :: ls, buf => by
      by_cases h4 : 4 ≤ (buf ++ r.response).length
      · cases henc : enc (buf ++ r.response) with
        | none =>
            rw [streamLoop_threshold_fail enc r ls buf h4 henc]
            have ih := streamLoop_text_conserved enc ls (buf ++ r.response)
            dsimp only
            rw [joinStr_cons, ← String.append_assoc]
            exact ih
        | some samples =>
            cases hd : r.done with
            | true =>
                rw [streamLoop_flush_done enc r ls buf samples h4 henc hd]
                simp [joinStr_cons, joinStr_nil, String.append_empty,
                  String.append_assoc]
            | false =>
                rw [streamLoop_flush_cont enc r ls buf samples h4 henc hd]
                have ih := streamLoop_text_conserved enc ls ""
                rw [String.empty_append] at ih
                dsimp only
                rw [List.map_cons, joinStr_cons, joinStr_cons,
                  String.append_assoc, ih, ← String.append_assoc]
      · cases hd : r.done with
        | false =>
            rw [streamLoop_accumulate enc r ls buf h4 hd]
            have ih := streamLoop_text_conserved enc ls (buf ++ r.response)
            dsimp only
            rw [joinStr_cons, ← String.append_assoc]
            exact ih
        | true =>
            by_cases hb : buf ++ r.response = ""
            · rw [streamLoop_done_empty enc r ls buf h4 hd hb]
              simp [joinStr_cons, joinStr_nil, String.append_empty,
                String.empty_append, ← String.append_assoc, hb]
            · cases henc : enc (buf ++ r.response) with
              | none =>
                  rw [streamLoop_drain_fail enc r ls buf h4 hd hb henc]
                  have ih := streamLoop_text_conserved enc ls (buf ++ r.response)
                  dsimp only
                  rw [joinStr_cons, ← String.append_assoc]
                  exact ih
              | some samples =>
                  rw [streamLoop_drain_ok enc r ls buf samples h4 hd hb henc]
                  simp [joinStr_cons, joinStr_nil, String.append_empty,
                    String.append_assoc]

/-- Claim C1 (amended): the fragment loop ends at the first done record whose
processing completes, or when the transport line list is exhausted.  On a
done termination every consumed token (plus the initial buffer) has been
flushed to the codec; on a transport-end termination the flushed texts fall
short of the consumed text by exactly the final buffer, which is discarded
without synthesis rather than flushed. -/
theorem C1_termination_flush (enc : String → Option (List ℚ))
    (lines : List (Option OllamaRecord)) (buf : String) :
    ((streamLoop enc lines buf).sawDone = true →
      joinStr (((streamLoop enc lines buf).flushes).map FlushEv.text) =
        buf ++ joinStr ((streamLoop enc lines buf).consumed)) ∧
    ((streamLoop enc lines buf).sawDone = false →
      joinStr (((streamLoop enc lines buf).flushes).map FlushEv.text) ++
          (streamLoop enc lines buf).buffer =
        buf ++ joinStr ((streamLoop enc lines buf).consumed)) := by
  have h := streamLoop_text_conserved enc lines buf
  constructor
  · intro hdone
    rw [hdone] at h
    simpa [String.append_empty] using h
  · intro hdone
    rw [hdone] at h
    simpa using h

/-- Witness for C1 (amended) at a concrete done-terminated run: the single
flush accounts for the whole consumed text. -/
theorem C1_termination_flush_witness :
    joinStr (((streamLoop (fun _ => some ([] : List ℚ))
        [some ⟨"abcd", true⟩] "").flushes).map FlushEv.text) =
      "" ++ joinStr ((streamLoop (fun _ => some ([] : List ℚ))
        [some ⟨"abcd", true⟩] "").consumed) :=
  (C1_termination_flush (fun _ => some ([] : List ℚ))
    [some ⟨"abcd", true⟩] "").1 (by decide)

/-- Counterexample to claim C1 as stated: when the transport stream ends
without a done record, the text still accumulated in the buffer ("ab") is NOT
flushed — no PCM chunk is emitted for it and the streaming run ends with the
header as its only output, while the claim requires a final flush in this
termination case too. -/
theorem C1_counterexample :
    (streamLoop (fun _ => some ([] : List ℚ)) [some ⟨"ab", false⟩] "").buffer
        = "ab" ∧
    (streamLoop (fun _ => some ([] : List ℚ)) [some ⟨"ab", false⟩] "").sawDone
        = false ∧
    (streamLoop (fun _ => some ([] : List ℚ)) [some ⟨"ab", false⟩] "").chunks
        = [] ∧
    (streamAudio (fun _ => some ([] : List ℚ)) 24000
        (.response 200 [some ⟨"ab", false⟩])).outputs =
      [.header (wavHeader 24000 0)] := by
  refine ⟨by decide, by decide, by decide, by decide⟩

/-- Shape of every flush the fragment loop performs: the buffer is empty right
after a threshold flush; a threshold flush only fires on a buffer of at least
4 characters; the drain flush only fires on a non-empty buffer of fewer than 4
characters, and the buffer length after any flush is below the threshold. -/
theorem streamLoop_flush_inv (enc : String → Option (List ℚ)) :
    ∀ (lines : List (Option OllamaRecord)) (buf : String),
      ∀ ev ∈ (streamLoop enc lines buf).flushes,
        ev.after < 4 ∧
        (ev.drain = false → 4 ≤ ev.text.length ∧ ev.after = 0) ∧
        (ev.drain = true → 0 < ev.text.length ∧ ev.text.length < 4)
  | [], buf => by simp [streamLoop]
  | none :: ls, buf => by
      rw [streamLoop_none]
      exact streamLoop_flush_inv enc ls buf
  | some r :: ls, buf => by
      by_cases h4 : 4 ≤ (buf ++ r.response).length
      · cases henc : enc (buf ++ r.response) with
        | none =>
            rw [streamLoop_threshold_fail enc r ls buf h4 henc]
            exact streamLoop_flush_inv enc ls (buf ++ r.response)
        | some samples =>
            cases hd : r.done with
            | true =>
                rw [streamLoop_flush_done enc r ls buf samples h4 henc hd]
                intro ev hev
                simp only [List.mem_singleton] at hev
                subst hev
                refine ⟨by norm_num, fun _ => ⟨h4, rfl⟩,
                  fun hcontra => by simp at hcontra⟩
            | false =>
                rw [streamLoop_flush_cont enc r ls buf samples h4 henc hd]
                intro ev hev
                simp only [List.mem_cons] at hev
                rcases hev with hev | hev
                · subst hev
                  refine ⟨by norm_num, fun _ => ⟨h4, rfl⟩,
                    fun hcontra => by simp at hcontra⟩
                · exact streamLoop_flush_inv enc ls "" ev hev
      · cases hd : r.done with
        | false =>
            rw [streamLoop_accumulate enc r ls buf h4 hd]
            exact streamLoop_flush_inv enc ls (buf ++ r.response)
        | true =>
            by_cases hb : buf ++ r.response = ""
            · rw [streamLoop_done_empty enc r ls buf h4 hd hb]
              simp
            · cases henc : enc (buf ++ r.response) with
              | none =>
                  rw [streamLoop_drain_fail enc r ls buf h4 hd hb henc]
                  exact streamLoop_flush_inv enc ls (buf ++ r.response)
              | some samples =>
                  rw [streamLoop_drain_ok enc r ls buf samples h4 hd hb henc]
                  intro ev hev
                  simp only [List.mem_singleton] at hev
                  subst hev
                  refine ⟨by dsimp only; omega, fun hcontra => by simp at hcontra,
                    fun _ => ⟨length_pos_of_ne_empty _ hb, by dsimp only; omega⟩⟩

/-- With a codec that never raises, the loop keeps the accumulator below the
threshold at exit whenever it starts below it. -/
theorem streamLoop_buffer_lt (enc : String → Option (List ℚ))
    (htot : ∀ s, (enc s).isSome = true) :
    ∀ (lines : List (Option OllamaRecord)) (buf : String),
      buf.length < 4 → (streamLoop enc lines buf).buffer.length < 4
  | [], buf => by simp [streamLoop]
  | none :: ls, buf => by
      rw [streamLoop_none]
      exact streamLoop_buffer_lt enc htot ls buf
  | some r :: ls, buf => by
      intro hbuf
      by_cases h4 : 4 ≤ (buf ++ r.response).length
      · cases henc : enc (buf ++ r.response) with
        | none =>
            have := htot (buf ++ r.response)
            rw [henc] at this
            simp at this
        | some samples =>
            cases hd : r.done with
            | true =>
                rw [streamLoop_flush_done enc r ls buf samples h4 henc hd]
                dsimp only
                decide
            | false =>
                rw [streamLoop_flush_cont enc r ls buf samples h4 henc hd]
                exact streamLoop_buffer_lt enc htot ls "" (by decide)
      · cases hd : r.done with
        | false =>
            rw [streamLoop_accumulate enc r ls buf h4 hd]
            exact streamLoop_buffer_lt enc htot ls (buf ++ r.response)
              (Nat.lt_of_not_le h4)
        | true =>
            by_cases hb : buf ++ r.response = ""
            · rw [streamLoop_done_empty enc r ls buf h4 hd hb]
              dsimp only
              rw [hb]
              decide
            · cases henc : enc (buf ++ r.response) with
              | none =>
                  have := htot (buf ++ r.response)
                  rw [henc] at this
                  simp at this
              | some samples =>
                  rw [streamLoop_drain_ok enc r ls buf samples h4 hd hb henc]
                  dsimp only
                  exact Nat.lt_of_not_le h4

/-- Claim C5: with a codec that never raises and a below-threshold starting
buffer, the accumulator is below the threshold (4 characters) immediately
after every flush (a threshold flush leaves it empty, the drain flush ends
the loop with fewer than 4 characters); a non-drain flush fires exactly on a
buffer of length at least 4, and the drain flush fires only on a non-empty
remainder shorter than the threshold; finally the loop exits with a buffer
below the threshold. -/
theorem C5_accumulator_invariant (enc : String → Option (List ℚ))
    (lines : List (Option OllamaRecord)) (buf : String)
    (htot : ∀ s, (enc s).isSome = true) (hbuf : buf.length < 4) :
    (∀ ev ∈ (streamLoop enc lines buf).flushes,
      ev.after < 4 ∧
      (ev.drain = false → 4 ≤ ev.text.length ∧ ev.after = 0) ∧
      (ev.drain = true → 0 < ev.text.length ∧ ev.text.length < 4)) ∧
    (streamLoop enc lines buf).buffer.length < 4 :=
  ⟨streamLoop_flush_inv enc lines buf,
   streamLoop_buffer_lt enc htot lines buf hbuf⟩

/-- Witness for C5 at a concrete run that flushes once on "abcd" and drains:
the loop exits with a below-threshold buffer. -/
theorem C5_accumulator_invariant_witness :
    (streamLoop (fun _ => some ([] : List ℚ))
      [some ⟨"abcd", true⟩] "").buffer.length < 4 :=
  (C5_accumulator_invariant (fun _ => some ([] : List ℚ))
    [some ⟨"abcd", true⟩] "" (fun _ => rfl) (by decide)).2

/-- Counterexample to claim C3 as stated: the codec raises on the buffered
text "abcd" (recorded in failures), yet the run does not stop — the retained
buffer is re-encoded together with the next token and a further PCM chunk is
emitted — and the streaming generator ends without raising, so no error
reaches the caller. -/
theorem C3_counterexample :
    (streamLoop (fun s => if s = "abcd" then none else some ([] : List ℚ))
        [some ⟨"abcd", false⟩, some ⟨"wxyz", true⟩] "").failures = ["abcd"] ∧
    (streamLoop (fun s => if s = "abcd" then none else some ([] : List ℚ))
        [some ⟨"abcd", false⟩, some ⟨"wxyz", true⟩] "").chunks = [[]] ∧
    (streamAudio (fun s => if s = "abcd" then none else some ([] : List ℚ))
        24000
        (.response 200 [some ⟨"abcd", false⟩, some ⟨"wxyz", true⟩])).raised
      = false := by
  refine ⟨by decide, by decide, by decide⟩

/-- Claim C3 (amended): a codec exception while synthesizing a chunk is
caught inside the loop: a streaming run whose transport responded 200 never
raises, and after a failed threshold flush the loop goes on with the next
line, keeping the buffer, so the chunks and exit buffer are those of the
continuation. -/
theorem C3_codec_error_continues (enc : String → Option (List ℚ))
    (rate : ℕ) (lines : List (Option OllamaRecord)) (r : OllamaRecord)
    (ls : List (Option OllamaRecord)) (buf : String)
    (h4 : 4 ≤ (buf ++ r.response).length)
    (he : enc (buf ++ r.response) = none) :
    (streamAudio enc rate (.response 200 lines)).raised = false ∧
    (streamLoop enc (some r :: ls) buf).chunks =
      (streamLoop enc ls (buf ++ r.response)).chunks ∧
    (streamLoop enc (some r :: ls) buf).buffer =
      (streamLoop enc ls (buf ++ r.response)).buffer := by
  refine ⟨by simp [streamAudio], ?_, ?_⟩
  · rw [streamLoop_threshold_fail enc r ls buf h4 he]
  · rw [streamLoop_threshold_fail enc r ls buf h4 he]

/-- Witness for C3 (amended) at a concrete run: a codec that always raises
leaves a 200 run unraised and skips the failed flush. -/
theorem C3_codec_error_continues_witness :
    (streamAudio (fun _ => (none : Option (List ℚ))) 24000
        (.response 200 [])).raised = false ∧
    (streamLoop (fun _ => (none : Option (List ℚ)))
        [some ⟨"abcd", false⟩] "").chunks =
      (streamLoop (fun _ => (none : Option (List ℚ))) [] ("" ++ "abcd")).chunks ∧
    (streamLoop (fun _ => (none : Option (List ℚ)))
        [some ⟨"abcd", false⟩] "").buffer =
      (streamLoop (fun _ => (none : Option (List ℚ))) [] ("" ++ "abcd")).buffer :=
  C3_codec_error_continues (fun _ => none) 24000 [] ⟨"abcd", false⟩ [] ""
    (by decide) rfl

/-- Counterexample to claim C4 as stated: in a streaming run a non-success
status (here 500) from the text-generation backend is not surfaced — the
generator logs, yields only the header and returns normally, raising
nothing. -/
theorem C4_counterexample :
    streamAudio (fun _ => some ([] : List ℚ)) 24000 (.response 500 []) =
      ⟨[.header (wavHeader 24000 0)], false⟩ := by
  decide

/-- Claim C4 (amended): the non-streaming path surfaces a transport raise and
a non-success status as errors; the streaming path re-raises a transport
raise (after the header was already yielded) but ends the stream silently,
with no error, on a non-success status. -/
theorem C4_error_surfacing (enc : String → Option (List ℚ)) (rate : ℕ) :
    (generateCompleteAudio enc rate .failure = .error .transportRaise) ∧
    (∀ status body, status ≠ 200 →
      generateCompleteAudio enc rate (.response status body) =
        .error .requestError) ∧
    ((streamAudio enc rate .failure).raised = true) ∧
    (∀ status lines, status ≠ 200 →
      streamAudio enc rate (.response status lines) =
        ⟨[.header (wavHeader rate 0)], false⟩) := by
  refine ⟨rfl, ?_, rfl, ?_⟩
  · intro status body h
    simp [generateCompleteAudio, h]
  · intro status lines h
    simp [streamAudio, h]

/-- Witness for C4 (amended) at status 500: the complete path errors, the
streaming path ends with only the header and no raise. -/
theorem C4_error_surfacing_witness :
    generateCompleteAudio (fun _ => some ([] : List ℚ)) 24000
        (.response 500 "x") = .error .requestError ∧
    streamAudio (fun _ => some ([] : List ℚ)) 24000 (.response 500 []) =
      ⟨[.header (wavHeader 24000 0)], false⟩ :=
  ⟨(C4_error_surfacing (fun _ => some ([] : List ℚ)) 24000).2.1 500 "x"
      (by decide),
   (C4_error_surfacing (fun _ => some ([] : List ℚ)) 24000).2.2.2 500 []
      (by decide)⟩

/-- wrap16 is the identity on values already inside the int16 range. -/
theorem wrap16_eq_of_mem (n : ℤ) (h1 : -32768 ≤ n) (h2 : n ≤ 32767) :
    wrap16 n = n := by
  unfold wrap16
  omega

/-- Truncation toward zero moves a rational by less than one. -/
theorem ratTruncZ_close (q : ℚ) : |(ratTruncZ q : ℚ) - q| ≤ 1 := by
  unfold ratTruncZ
  rcases le_or_lt 0 q with h0 | h0
  · rw [if_pos h0, abs_le]
    have hf1 := Int.floor_le q
    have hf2 := Int.lt_floor_add_one q
    constructor
    · linarith
    · linarith
  · rw [if_neg (not_le.mpr h0), abs_le]
    have hc1 := Int.le_ceil q
    have hc2 := Int.ceil_lt_add_one q
    constructor
    · linarith
    · linarith

/-- Truncation toward zero stays between the bounds of the argument range
when that range brackets zero. -/
theorem ratTruncZ_mem (q : ℚ) (h1 : -32767 ≤ q) (h2 : q ≤ 32767) :
    -32767 ≤ ratTruncZ q ∧ ratTruncZ q ≤ 32767 := by
  unfold ratTruncZ
  rcases le_or_lt 0 q with h0 | h0
  · rw [if_pos h0]
    have hnn : 0 ≤ ⌊q⌋ := Int.floor_nonneg.mpr h0
    have hub : ⌊q⌋ ≤ ⌊(32767 : ℚ)⌋ := Int.floor_le_floor h2
    have : ⌊(32767 : ℚ)⌋ = 32767 := by norm_num
    omega
  · rw [if_neg (not_le.mpr h0)]
    have hnp : ⌈q⌉ ≤ 0 := Int.ceil_le.mpr (by push_cast; linarith)
    have hlb : ⌈(-32767 : ℚ)⌉ ≤ ⌈q⌉ := Int.ceil_le_ceil h1
    have : ⌈(-32767 : ℚ)⌉ = -32767 := by
      rw [show (-32767 : ℚ) = ((-32767 : ℤ) : ℚ) by norm_num]
      exact Int.ceil_intCast _
    omega

/-- Claim C2 (amended): the source quantizes a sample by truncating s·32767
toward zero and wrapping into int16 — not by rounding and clamping.  For s in
[-1, 1] no wrap occurs (the value already lies in [-32767, 32767]) and the
dequantized value n/32767 differs from s by at most one truncation step,
1/32767. -/
theorem C2_truncating_quantizer (s : ℚ) (h1 : -1 ≤ s) (h2 : s ≤ 1) :
    quantizeSample s = ratTruncZ (s * 32767) ∧
    -32767 ≤ quantizeSample s ∧ quantizeSample s ≤ 32767 ∧
    |(quantizeSample s : ℚ) / 32767 - s| ≤ 1 / 32767 := by
  have hx1 : (-32767 : ℚ) ≤ s * 32767 := by nlinarith
  have hx2 : s * 32767 ≤ 32767 := by nlinarith
  obtain ⟨htr1, htr2⟩ := ratTruncZ_mem (s * 32767) hx1 hx2
  have heq : quantizeSample s = ratTruncZ (s * 32767) :=
    wrap16_eq_of_mem _ (by omega) htr2
  refine ⟨heq, by rw [heq]; exact htr1, by rw [heq]; exact htr2, ?_⟩
  rw [heq]
  have hclose := ratTruncZ_close (s * 32767)
  have hrw : (ratTruncZ (s * 32767) : ℚ) / 32767 - s =
      ((ratTruncZ (s * 32767) : ℚ) - s * 32767) / 32767 := by
    ring
  rw [hrw, abs_div, abs_of_pos (show (0 : ℚ) < 32767 by norm_num)]
  gcongr

/-- Witness for C2 (amended) at s = 1: the quantizer returns the truncation
of 32767 with no wrap, and the dequantization error is within one step. -/
theorem C2_truncating_quantizer_witness :
    quantizeSample 1 = ratTruncZ ((1 : ℚ) * 32767) ∧
    -32767 ≤ quantizeSample 1 ∧ quantizeSample 1 ≤ 32767 ∧
    |(quantizeSample 1 : ℚ) / 32767 - 1| ≤ 1 / 32767 :=
  C2_truncating_quantizer 1 (by norm_num) le_rfl

/-- Counterexample to claim C2 as stated: at the out-of-range sample s = 3/2
the source computes trunc(3/2 · 32767) = 49150 and the int16 cast wraps it to
-16386, while the round-and-clamp quantizer of the spec demands the saturated
value 32767.  The output wraps across zero instead of saturating at the
16-bit boundary. -/
theorem C2_counterexample :
    quantizeSample (3 / 2) = -16386 ∧
    specQuantize (3 / 2) = 32767 ∧
    quantizeSample (3 / 2) ≠ specQuantize (3 / 2) := by
  have hx : (3 / 2 : ℚ) * 32767 = 98301 / 2 := by norm_num
  have hfl : ⌊(98301 / 2 : ℚ)⌋ = 49150 := by
    rw [Int.floor_eq_iff]
    norm_num
  have htr : ratTruncZ ((3 / 2 : ℚ) * 32767) = 49150 := by
    unfold ratTruncZ
    rw [hx, if_pos (by norm_num), hfl]
  have hq : quantizeSample (3 / 2) = -16386 := by
    unfold quantizeSample
    rw [htr]
    unfold wrap16
    decide
  have hround : round ((3 / 2 : ℚ) * 32767) = 49151 := by
    rw [hx, round_eq]
    norm_num
  have hs : specQuantize (3 / 2) = 32767 := by
    unfold specQuantize
    rw [hround]
    decide
  exact ⟨hq, hs, by rw [hq, hs]; decide⟩

/-- Each quantized sample contributes exactly two PCM bytes. -/
theorem pcm16Bytes_length (l : List ℚ) :
    (pcm16Bytes l).length = 2 * l.length := by
  induction l with
  | nil => rfl
  | cons s rest ih =>
      simp [pcm16Bytes, int16ToBytesLE, ih]
      omega

/-- Counterexample to claim C7 as stated: when the backend answers 200 with
empty generated text, the non-streaming call completes successfully but
returns the empty byte string, which is not a container-formatted audio file
(it has no RIFF preamble at all). -/
theorem C7_counterexample :
    generateCompleteAudio (fun _ => some ([] : List ℚ)) 24000
        (.response 200 "") = .ok [] ∧
    List.take 4 ([] : List ℕ) ≠ [82, 73, 70, 70] := by
  exact ⟨rfl, by decide⟩

/-- Claim C7 (amended): every non-streaming call that completes successfully
with non-empty generated text returns a complete RIFF/WAVE file: the RIFF
magic, channels = 1, 16 bits per sample, the configured sample rate, a
declared data length equal to the exact PCM byte count (2 bytes per sample),
and the PCM payload right after the 44-byte header.  (A successful call on
empty generated text instead returns an empty byte string.) -/
theorem C7_complete_wav_layout (enc : String → Option (List ℚ)) (rate : ℕ)
    (body : String) (samples : List ℚ)
    (hb : body ≠ "") (he : enc body = some samples)
    (hr : rate < 2 ^ 32) (hn : 2 * samples.length < 2 ^ 32) :
    generateCompleteAudio enc rate (.response 200 body) =
        .ok (wavComplete rate (pcm16Bytes samples)) ∧
    (wavComplete rate (pcm16Bytes samples)).take 4 = [82, 73, 70, 70] ∧
    readLE16 (wavComplete rate (pcm16Bytes samples)) 22 = 1 ∧
    readLE32 (wavComplete rate (pcm16Bytes samples)) 24 = rate ∧
    readLE16 (wavComplete rate (pcm16Bytes samples)) 34 = 16 ∧
    readLE32 (wavComplete rate (pcm16Bytes samples)) 40 = 2 * samples.length ∧
    (wavComplete rate (pcm16Bytes samples)).drop 44 = pcm16Bytes samples ∧
    (wavComplete rate (pcm16Bytes samples)).length = 44 + 2 * samples.length := by
  have hlen := pcm16Bytes_length samples
  refine ⟨by simp [generateCompleteAudio, hb, he], ?_, ?_, ?_, ?_, ?_, ?_, ?_⟩
  · rw [wavComplete_flat]
    rfl
  · rw [wavComplete_flat]
    simp [readLE16, byteAt]
  · rw [wavComplete_flat]
    simp only [readLE32, byteAt]
    omega
  · rw [wavComplete_flat]
    simp [readLE16, byteAt]
  · rw [wavComplete_flat]
    simp only [readLE32, byteAt]
    omega
  · rw [wavComplete_flat]
    rfl
  · rw [wavComplete_flat]
    simp only [List.length_cons]
    omega

/-- Witness for C7 (amended) at a concrete successful call: body "x", a codec
returning no samples, rate 24000. -/
theorem C7_complete_wav_layout_witness :
    generateCompleteAudio (fun _ => some ([] : List ℚ)) 24000
        (.response 200 "x") = .ok (wavComplete 24000 (pcm16Bytes [])) :=
  (C7_complete_wav_layout (fun _ => some ([] : List ℚ)) 24000 "x" []
    (by decide) rfl (by norm_num) (by norm_num)).1

end OrpheusTTS
